import Mathlib

/-!
Verification of the air-quality-monitor serial ingestion core
(`src/esp32/src/esp32.cpp`): the frame reader `readArduinoData`, the
command parser `parseArduinoData`, the sensor state store `SensorData`,
and the snapshot exporter `handleData`.

Modelling conventions: C++ `int` / `long` values are modelled as `Int`
(all stored values are immediately range-checked, so machine width never
matters on the paths verified here); `unsigned long` millisecond
timestamps are `Nat`; bytes on the wire are `Nat` values `0..255`;
the Arduino `String` buffer is a `List Char`.
-/

/-- The store (`struct SensorData` in the source), all fields
zero-initialised. -/
structure SensorData where
  co2 : Int := 0
  pm25 : Int := 0
  o3 : Int := 0
  temp : Int := 0
  hum : Int := 0
  tvoc : Int := 0
  lastUpdate : Nat := 0
deriving DecidableEq, Repr

/-- The store as created at startup: all fields zeroed. -/
def initialSensorData : SensorData := {}

/-! ### Arduino `String::toInt` (C `atol`) semantics -/

/-- C `isspace` on the ASCII range: blank (32) or the control characters
9..13 (tab, newline, vertical tab, form feed, carriage return). -/
def isSpaceChar (c : Char) : Bool := c.toNat = 32 || (9 ≤ c.toNat && c.toNat ≤ 13)

/-- Decimal digit test (codes 48..57). -/
def isDigitChar (c : Char) : Bool := 48 ≤ c.toNat && c.toNat ≤ 57

/-- Drop the leading run of whitespace, as `atol` does. -/
def skipSpaces : List Char → List Char
  | [] => []
  | c :: cs => if isSpaceChar c then skipSpaces cs else c :: cs

/-- The leading run of decimal digits. -/
def leadingDigits (cs : List Char) : List Char := cs.takeWhile isDigitChar

/-- Value of a digit string, most significant digit first. -/
def natOfDigits (ds : List Char) : Nat :=
  ds.foldl (fun a c => 10 * a + (c.toNat - 48)) 0

/-- Arduino `String::toInt`, i.e. C `atol`: skip whitespace, read an
optional sign, then the leading digit run; no digits yields 0. -/
def atoi (cs : List Char) : Int :=
  match skipSpaces cs with
  | [] => 0
  | c :: r =>
    if c = '-' then - (natOfDigits (leadingDigits r) : Int)
    else if c = '+' then (natOfDigits (leadingDigits r) : Int)
    else (natOfDigits (leadingDigits (c :: r)) : Int)

/-! ### The command parser `parseArduinoData` -/

/-- The characters of the literal `"co2V.val="`. -/
def co2Tag : List Char := ['c', 'o', '2', 'V', '.', 'v', 'a', 'l', '=']

/-- The characters of the literal `"pm25V.val="`. -/
def pm25Tag : List Char := ['p', 'm', '2', '5', 'V', '.', 'v', 'a', 'l', '=']

/-- The characters of the literal `"o3V.val="`. -/
def o3Tag : List Char := ['o', '3', 'V', '.', 'v', 'a', 'l', '=']

/-- The characters of the literal `"tempV.val="`. -/
def tempTag : List Char := ['t', 'e', 'm', 'p', 'V', '.', 'v', 'a', 'l', '=']

/-- The characters of the literal `"humV.val="`. -/
def humTag : List Char := ['h', 'u', 'm', 'V', '.', 'v', 'a', 'l', '=']

/-- The characters of the literal `"tvocV.val="`. -/
def tvocTag : List Char := ['t', 'v', 'o', 'c', 'V', '.', 'v', 'a', 'l', '=']

/-- `parseArduinoData` from the source: a first-match `startsWith` chain,
each branch parsing the suffix with `toInt`, range-checking it, and on
acceptance writing the field and stamping `lastUpdate := millis()`
(passed here as `now`). The `substring` offsets 9/10/8/10/9/10 are the
source's literals. -/
def parseArduinoData (now : Nat) (s : SensorData) (data : List Char) : SensorData :=
  if co2Tag.isPrefixOf data then
    let value := atoi (data.drop 9)
    if 0 < value ∧ value < 10000 then { s with co2 := value, lastUpdate := now } else s
  else if pm25Tag.isPrefixOf data then
    let value := atoi (data.drop 10)
    if 0 ≤ value ∧ value < 2000 then { s with pm25 := value, lastUpdate := now } else s
  else if o3Tag.isPrefixOf data then
    let value := atoi (data.drop 8)
    if 0 ≤ value ∧ value < 2000 then { s with o3 := value, lastUpdate := now } else s
  else if tempTag.isPrefixOf data then
    let value := atoi (data.drop 10)
    if -50 ≤ value ∧ value < 100 then { s with temp := value, lastUpdate := now } else s
  else if humTag.isPrefixOf data then
    let value := atoi (data.drop 9)
    if 0 ≤ value ∧ value ≤ 100 then { s with hum := value, lastUpdate := now } else s
  else if tvocTag.isPrefixOf data then
    let value := atoi (data.drop 10)
    if 0 ≤ value ∧ value < 2000 then { s with tvoc := value, lastUpdate := now } else s
  else s

/-! ### The frame reader `readArduinoData` -/

/-- Frame-reader state: the accumulation buffer `serialBuffer`, the
consecutive-0xFF counter `ffCount` (both file/function statics in the
source) and the store. -/
structure ReaderState where
  serialBuffer : List Char := []
  ffCount : Nat := 0
  sensor : SensorData := {}
deriving DecidableEq, Repr

/-- The boot state: empty buffer, zero counter, zeroed store. -/
def initialReaderState : ReaderState := {}

/-- One iteration of the `while (ArduinoSerial.available())` loop body of
`readArduinoData` on byte `b`: delimiter counting (0xFF), emission of the
buffer to `parseArduinoData` at the third consecutive delimiter when
non-empty, printable-ASCII accumulation, and the trailing overflow check
(`length > 100` clears buffer and counter). Returns the new state and the
message emitted to the parser on this byte, if any. -/
def processByte (now : Nat) (st : ReaderState) (b : Nat) : ReaderState × Option (List Char) :=
  let stepped : ReaderState × Option (List Char) :=
    if b = 255 then
      let ff := st.ffCount + 1
      if 3 ≤ ff then
        if 0 < st.serialBuffer.length then
          (⟨[], 0, parseArduinoData now st.sensor st.serialBuffer⟩, some st.serialBuffer)
        else
          ({ st with ffCount := 0 }, none)
      else
        ({ st with ffCount := ff }, none)
    else
      if 32 ≤ b ∧ b ≤ 126 then
        ({ st with ffCount := 0, serialBuffer := st.serialBuffer ++ [Char.ofNat b] }, none)
      else
        ({ st with ffCount := 0 }, none)
  if 100 < stepped.1.serialBuffer.length then
    ({ stepped.1 with serialBuffer := [], ffCount := 0 }, stepped.2)
  else
    stepped

/-- Run the frame reader over a byte sequence, collecting the messages it
hands to the parser, in order. -/
def processBytes (now : Nat) (st : ReaderState) : List Nat → ReaderState × List (List Char)
  | [] => (st, [])
  | b :: bs =>
    let r := processByte now st b
    let rest := processBytes now r.1 bs
    (rest.1, r.2.toList ++ rest.2)

/-! ### The snapshot exporter `handleData` -/

/-- The JSON document built by `handleData`, as the ordered key/value
list the source assigns: the six fields, then `lastUpdate` set to
`millis()` at export time (`now`), not the store's stored timestamp. -/
def handleDataDoc (s : SensorData) (now : Nat) : List (String × Int) :=
  [("co2", s.co2), ("pm25", s.pm25), ("o3", s.o3), ("temp", s.temp),
   ("hum", s.hum), ("tvoc", s.tvoc), ("lastUpdate", (now : Int))]

/-- Comma-join of rendered members, as `serializeJson` separates them. -/
def joinComma : List (List Char) → List Char
  | [] => []
  | [x] => x
  | x :: xs => x ++ ',' :: joinComma xs

/-- `serializeJson` on a flat integer-valued document: the brace-wrapped,
comma-separated `"key":value` members, in document order. The emitted
character sequence is modelled as a `List Char` like the serial buffer. -/
def serializeJson (doc : List (String × Int)) : List Char :=
  '\x7b' :: joinComma
    (doc.map (fun kv => '"' :: kv.1.data ++ '"' :: ':' :: (toString kv.2).data)) ++ ['\x7d']

/-- `handleData`: reads the store, serializes the document, and sends it
with HTTP status 200. It never writes the store, so the state component
is returned unchanged. -/
def handleData (s : SensorData) (now : Nat) : SensorData × Nat × List Char :=
  (s, 200, serializeJson (handleDataDoc s now))

/-! ### Specification-side helpers -/

/-- Field index order: 0 CO2, 1 PM2.5, 2 O3, 3 temperature, 4 humidity,
5 TVOC. -/
def fieldVal (i : Fin 6) (s : SensorData) : Int :=
  if i.val = 0 then s.co2 else if i.val = 1 then s.pm25 else if i.val = 2 then s.o3
  else if i.val = 3 then s.temp else if i.val = 4 then s.hum else s.tvoc

/-- Write one field and stamp `lastUpdate`, leaving the other five fields
unchanged. -/
def writeField (i : Fin 6) (v : Int) (now : Nat) (s : SensorData) : SensorData :=
  if i.val = 0 then { s with co2 := v, lastUpdate := now }
  else if i.val = 1 then { s with pm25 := v, lastUpdate := now }
  else if i.val = 2 then { s with o3 := v, lastUpdate := now }
  else if i.val = 3 then { s with temp := v, lastUpdate := now }
  else if i.val = 4 then { s with hum := v, lastUpdate := now }
  else { s with tvoc := v, lastUpdate := now }

/-- Lower bound of each field's declared plausible range. -/
def rangeLo (i : Fin 6) : Int := if i.val = 0 then 1 else if i.val = 3 then -50 else 0

/-- Upper bound (inclusive) of each field's declared plausible range. -/
def rangeHi (i : Fin 6) : Int :=
  if i.val = 0 then 9999 else if i.val = 3 then 99 else if i.val = 4 then 100 else 1999

/-- The declared plausible range of field `i`, bounds inclusive. -/
def inRange (i : Fin 6) (v : Int) : Prop := rangeLo i ≤ v ∧ v ≤ rangeHi i

instance (i : Fin 6) (v : Int) : Decidable (inRange i v) :=
  inferInstanceAs (Decidable (rangeLo i ≤ v ∧ v ≤ rangeHi i))

/-- The recognized command tag of field `i`. -/
def fieldTag (i : Fin 6) : List Char :=
  if i.val = 0 then co2Tag else if i.val = 1 then pm25Tag else if i.val = 2 then o3Tag
  else if i.val = 3 then tempTag else if i.val = 4 then humTag else tvocTag

/-- The store range invariant: every field is still at its initial zero
or holds an accepted value inside its declared range. -/
def storeInv (s : SensorData) : Prop :=
  (s.co2 = 0 ∨ (1 ≤ s.co2 ∧ s.co2 ≤ 9999)) ∧
  (s.pm25 = 0 ∨ (0 ≤ s.pm25 ∧ s.pm25 ≤ 1999)) ∧
  (s.o3 = 0 ∨ (0 ≤ s.o3 ∧ s.o3 ≤ 1999)) ∧
  (s.temp = 0 ∨ (-50 ≤ s.temp ∧ s.temp ≤ 99)) ∧
  (s.hum = 0 ∨ (0 ≤ s.hum ∧ s.hum ≤ 100)) ∧
  (s.tvoc = 0 ∨ (0 ≤ s.tvoc ∧ s.tvoc ≤ 1999))

instance (s : SensorData) : Decidable (storeInv s) := by
  unfold storeInv; infer_instance

/-- Fold the command parser over a timestamped message sequence starting
from the boot store. -/
def processMessages (msgs : List (Nat × List Char)) : SensorData :=
  msgs.foldl (fun s tm => parseArduinoData tm.1 s tm.2) initialSensorData
/-! ### Helper lemmas: parser reduction -/

lemma isPrefixOf_append_self (p rest : List Char) : p.isPrefixOf (p ++ rest) = true := by
  induction p with
  | nil => simp
  | cons a as ih => simp [List.isPrefixOf_cons₂, ih]

lemma parse_co2_eq (t : Nat) (s : SensorData) (rest : List Char) :
    parseArduinoData t s (co2Tag ++ rest) =
      if 0 < atoi rest ∧ atoi rest < 10000 then
        { s with co2 := atoi rest, lastUpdate := t } else s := by
  rw [parseArduinoData, if_pos (by rw [isPrefixOf_append_self])]
  rw [show (9 : Nat) = co2Tag.length from rfl, List.drop_left]

lemma parse_pm25_eq (t : Nat) (s : SensorData) (rest : List Char) :
    parseArduinoData t s (pm25Tag ++ rest) =
      if 0 ≤ atoi rest ∧ atoi rest < 2000 then
        { s with pm25 := atoi rest, lastUpdate := t } else s := by
  rw [parseArduinoData]
  rw [if_neg (by simp [co2Tag, pm25Tag, List.isPrefixOf_cons₂])]
  rw [if_pos (by rw [isPrefixOf_append_self])]
  rw [show (10 : Nat) = pm25Tag.length from rfl, List.drop_left]

lemma parse_o3_eq (t : Nat) (s : SensorData) (rest : List Char) :
    parseArduinoData t s (o3Tag ++ rest) =
      if 0 ≤ atoi rest ∧ atoi rest < 2000 then
        { s with o3 := atoi rest, lastUpdate := t } else s := by
  rw [parseArduinoData]
  rw [if_neg (by simp [co2Tag, o3Tag, List.isPrefixOf_cons₂])]
  rw [if_neg (by simp [pm25Tag, o3Tag, List.isPrefixOf_cons₂])]
  rw [if_pos (by rw [isPrefixOf_append_self])]
  rw [show (8 : Nat) = o3Tag.length from rfl, List.drop_left]

lemma parse_temp_eq (t : Nat) (s : SensorData) (rest : List Char) :
    parseArduinoData t s (tempTag ++ rest) =
      if -50 ≤ atoi rest ∧ atoi rest < 100 then
        { s with temp := atoi rest, lastUpdate := t } else s := by
  rw [parseArduinoData]
  rw [if_neg (by simp [co2Tag, tempTag, List.isPrefixOf_cons₂])]
  rw [if_neg (by simp [pm25Tag, tempTag, List.isPrefixOf_cons₂])]
  rw [if_neg (by simp [o3Tag, tempTag, List.isPrefixOf_cons₂])]
  rw [if_pos (by rw [isPrefixOf_append_self])]
  rw [show (10 : Nat) = tempTag.length from rfl, List.drop_left]

lemma parse_hum_eq (t : Nat) (s : SensorData) (rest : List Char) :
    parseArduinoData t s (humTag ++ rest) =
      if 0 ≤ atoi rest ∧ atoi rest ≤ 100 then
        { s with hum := atoi rest, lastUpdate := t } else s := by
  rw [parseArduinoData]
  rw [if_neg (by simp [co2Tag, humTag, List.isPrefixOf_cons₂])]
  rw [if_neg (by simp [pm25Tag, humTag, List.isPrefixOf_cons₂])]
  rw [if_neg (by simp [o3Tag, humTag, List.isPrefixOf_cons₂])]
  rw [if_neg (by simp [tempTag, humTag, List.isPrefixOf_cons₂])]
  rw [if_pos (by rw [isPrefixOf_append_self])]
  rw [show (9 : Nat) = humTag.length from rfl, List.drop_left]

lemma parse_tvoc_eq (t : Nat) (s : SensorData) (rest : List Char) :
    parseArduinoData t s (tvocTag ++ rest) =
      if 0 ≤ atoi rest ∧ atoi rest < 2000 then
        { s with tvoc := atoi rest, lastUpdate := t } else s := by
  rw [parseArduinoData]
  rw [if_neg (by simp [co2Tag, tvocTag, List.isPrefixOf_cons₂])]
  rw [if_neg (by simp [pm25Tag, tvocTag, List.isPrefixOf_cons₂])]
  rw [if_neg (by simp [o3Tag, tvocTag, List.isPrefixOf_cons₂])]
  rw [if_neg (by simp [tempTag, tvocTag, List.isPrefixOf_cons₂])]
  rw [if_neg (by simp [humTag, tvocTag, List.isPrefixOf_cons₂])]
  rw [if_pos (by rw [isPrefixOf_append_self])]
  rw [show (10 : Nat) = tvocTag.length from rfl, List.drop_left]

lemma parse_unknown_eq (t : Nat) (s : SensorData) (data : List Char)
    (h : ∀ i : Fin 6, (fieldTag i).isPrefixOf data = false) :
    parseArduinoData t s data = s := by
  rw [parseArduinoData]
  rw [if_neg (by rw [show co2Tag = fieldTag 0 from rfl, h 0]; simp)]
  rw [if_neg (by rw [show pm25Tag = fieldTag 1 from rfl, h 1]; simp)]
  rw [if_neg (by rw [show o3Tag = fieldTag 2 from rfl, h 2]; simp)]
  rw [if_neg (by rw [show tempTag = fieldTag 3 from rfl, h 3]; simp)]
  rw [if_neg (by rw [show humTag = fieldTag 4 from rfl, h 4]; simp)]
  rw [if_neg (by rw [show tvocTag = fieldTag 5 from rfl, h 5]; simp)]
/-! ### Decimal literals and the `atoi` round trip -/

/-- The character of a decimal digit value below 10. -/
def digitChar (n : Nat) : Char :=
  if n = 0 then '0' else if n = 1 then '1' else if n = 2 then '2' else if n = 3 then '3'
  else if n = 4 then '4' else if n = 5 then '5' else if n = 6 then '6' else if n = 7 then '7'
  else if n = 8 then '8' else '9'

/-- Base-10 literal of a natural number, most significant digit first. -/
def natLit (n : Nat) : List Char :=
  if h : n < 10 then [digitChar n]
  else natLit (n / 10) ++ [digitChar (n % 10)]
decreasing_by exact Nat.div_lt_self (by omega) (by omega)

/-- The optionally-signed base-10 literal of an integer, as written on
the wire. -/
def intLit (n : Int) : List Char :=
  if n < 0 then '-' :: natLit n.natAbs else natLit n.natAbs

lemma digitChar_toNat (n : Nat) (h : n < 10) : (digitChar n).toNat = 48 + n := by
  interval_cases n <;> rfl

lemma isDigitChar_digitChar (n : Nat) (h : n < 10) : isDigitChar (digitChar n) = true := by
  interval_cases n <;> rfl

lemma natLit_ne_nil (n : Nat) : natLit n ≠ [] := by
  rw [natLit]
  split <;> simp

lemma natLit_digits (n : Nat) : ∀ c ∈ natLit n, isDigitChar c = true := by
  induction n using Nat.strong_induction_on with
  | _ n ih =>
    rw [natLit]
    split
    · next h =>
      intro c hc
      simp only [List.mem_singleton] at hc
      subst hc
      exact isDigitChar_digitChar n h
    · next h =>
      intro c hc
      rcases List.mem_append.mp hc with h1 | h2
      · exact ih (n / 10) (Nat.div_lt_self (by omega) (by omega)) c h1
      · simp only [List.mem_singleton] at h2
        subst h2
        exact isDigitChar_digitChar (n % 10) (Nat.mod_lt _ (by omega))

lemma natOfDigits_append_one (ds : List Char) (c : Char) :
    natOfDigits (ds ++ [c]) = 10 * natOfDigits ds + (c.toNat - 48) := by
  simp [natOfDigits, List.foldl_append]

lemma natOfDigits_natLit (n : Nat) : natOfDigits (natLit n) = n := by
  induction n using Nat.strong_induction_on with
  | _ n ih =>
    rw [natLit]
    split
    · next h =>
      simp [natOfDigits, digitChar_toNat n h]
    · next h =>
      rw [natOfDigits_append_one, ih (n / 10) (Nat.div_lt_self (by omega) (by omega)),
        digitChar_toNat (n % 10) (Nat.mod_lt _ (by omega))]
      omega

lemma takeWhile_eq_self_of_all {p : Char → Bool} (l : List Char) (h : ∀ c ∈ l, p c = true) :
    l.takeWhile p = l := by
  induction l with
  | nil => rfl
  | cons a as ih =>
    rw [List.takeWhile_cons, h a (by simp)]
    simp [ih fun c hc => h c (by simp [hc])]

lemma skipSpaces_cons_of_not_space (c : Char) (cs : List Char) (h : isSpaceChar c = false) :
    skipSpaces (c :: cs) = c :: cs := by
  simp [skipSpaces, h]

lemma natLit_head_digit (n : Nat) :
    ∃ c cs, natLit n = c :: cs ∧ isDigitChar c = true := by
  rcases hl : natLit n with _ | ⟨c, cs⟩
  · exact absurd hl (natLit_ne_nil n)
  · exact ⟨c, cs, rfl, natLit_digits n c (by rw [hl]; simp)⟩

lemma atoi_natLit (n : Nat) : atoi (natLit n) = (n : Int) := by
  obtain ⟨c, cs, hl, hd⟩ := natLit_head_digit n
  have hdn : 48 ≤ c.toNat ∧ c.toNat ≤ 57 := by
    simpa [isDigitChar] using hd
  have hns : isSpaceChar c = false := by
    simp only [isSpaceChar, Bool.or_eq_false_iff, Bool.and_eq_false_iff,
      decide_eq_false_iff_not]
    omega
  have hcm : ¬(c = '-') := by
    intro hc
    subst hc
    simp at hdn
  have hcp : ¬(c = '+') := by
    intro hc
    subst hc
    simp at hdn
  have htake : leadingDigits (natLit n) = natLit n :=
    takeWhile_eq_self_of_all _ (natLit_digits n)
  rw [atoi, hl, skipSpaces_cons_of_not_space c cs hns]
  dsimp only
  rw [if_neg hcm, if_neg hcp, ← hl, htake, natOfDigits_natLit]

lemma atoi_intLit (n : Int) : atoi (intLit n) = n := by
  unfold intLit
  split
  · next h =>
    have hm : isSpaceChar '-' = false := by decide
    rw [atoi, skipSpaces_cons_of_not_space _ _ hm]
    dsimp only
    rw [if_pos rfl]
    have htake : leadingDigits (natLit n.natAbs) = natLit n.natAbs :=
      takeWhile_eq_self_of_all _ (natLit_digits n.natAbs)
    rw [htake, natOfDigits_natLit]
    omega
  · next h =>
    rw [atoi_natLit]
    omega
/-! ### Helper lemmas: frame reader -/

/-- The wire bytes of a character string. -/
def msgBytes (ms : List Char) : List Nat := ms.map Char.toNat

lemma processByte_printable (now : Nat) (β : List Char) (k : Nat) (sen : SensorData) (b : Nat)
    (h1 : 32 ≤ b) (h2 : b ≤ 126) (hlen : β.length < 100) :
    processByte now ⟨β, k, sen⟩ b = (⟨β ++ [Char.ofNat b], 0, sen⟩, none) := by
  have hb : ¬(b = 255) := by omega
  rw [processByte]
  dsimp only
  rw [if_neg hb, if_pos (⟨h1, h2⟩ : 32 ≤ b ∧ b ≤ 126)]
  rw [if_neg (show ¬(100 < (β ++ [Char.ofNat b]).length) by
    simp only [List.length_append, List.length_singleton]; omega)]

lemma processByte_overflow (now : Nat) (β : List Char) (k : Nat) (sen : SensorData) (b : Nat)
    (h1 : 32 ≤ b) (h2 : b ≤ 126) (hlen : β.length = 100) :
    processByte now ⟨β, k, sen⟩ b = (⟨[], 0, sen⟩, none) := by
  have hb : ¬(b = 255) := by omega
  rw [processByte]
  dsimp only
  rw [if_neg hb, if_pos (⟨h1, h2⟩ : 32 ≤ b ∧ b ≤ 126)]
  rw [if_pos (show 100 < (β ++ [Char.ofNat b]).length by
    simp only [List.length_append, List.length_singleton]; omega)]

lemma processByte_ff_low (now : Nat) (β : List Char) (k : Nat) (sen : SensorData)
    (hff : k + 1 < 3) (hlen : β.length ≤ 100) :
    processByte now ⟨β, k, sen⟩ 255 = (⟨β, k + 1, sen⟩, none) := by
  rw [processByte]
  dsimp only
  rw [if_pos rfl, if_neg (show ¬(3 ≤ k + 1) by omega)]
  rw [if_neg (show ¬(100 < β.length) by omega)]

lemma processByte_ff_third (now : Nat) (β : List Char) (sen : SensorData) :
    processByte now ⟨β, 2, sen⟩ 255 =
      if β = [] then (⟨[], 0, sen⟩, none)
      else (⟨[], 0, parseArduinoData now sen β⟩, some β) := by
  rw [processByte]
  dsimp only
  rw [if_pos rfl, if_pos (show 3 ≤ 2 + 1 by omega)]
  rcases β with _ | ⟨c, cs⟩
  · rw [if_neg (show ¬(0 < ([] : List Char).length) by simp), if_pos rfl]
    rw [if_neg (show ¬(100 < ([] : List Char).length) by simp)]
  · rw [if_pos (show 0 < (c :: cs).length by simp), if_neg (show ¬(c :: cs = []) by simp)]
    rw [if_neg (show ¬(100 < ([] : List Char).length) by simp)]

lemma processBytes_append (now : Nat) (bs1 bs2 : List Nat) :
    ∀ st : ReaderState, processBytes now st (bs1 ++ bs2) =
      ((processBytes now (processBytes now st bs1).1 bs2).1,
        (processBytes now st bs1).2 ++ (processBytes now (processBytes now st bs1).1 bs2).2) := by
  induction bs1 with
  | nil => intro st; simp [processBytes]
  | cons b bs ih =>
    intro st
    rw [List.cons_append, processBytes, processBytes]
    dsimp only
    rw [ih (processByte now st b).1]
    simp [List.append_assoc]
lemma processBytes_printable_run (now : Nat) (bs : List Nat)
    (h : ∀ b ∈ bs, 32 ≤ b ∧ b ≤ 126) :
    ∀ (β : List Char) (k : Nat) (sen : SensorData), β.length ≤ 100 →
      (processBytes now ⟨β, k, sen⟩ bs).2 = [] ∧
      (processBytes now ⟨β, k, sen⟩ bs).1.serialBuffer.length = (β.length + bs.length) % 101 ∧
      (processBytes now ⟨β, k, sen⟩ bs).1.sensor = sen := by
  induction bs with
  | nil =>
    intro β k sen hβ
    refine ⟨rfl, ?_, rfl⟩
    simp [processBytes]
    omega
  | cons b bs ih =>
    intro β k sen hβ
    obtain ⟨hb1, hb2⟩ := h b (by simp)
    have hrest : ∀ b' ∈ bs, 32 ≤ b' ∧ b' ≤ 126 := fun b' hb' => h b' (by simp [hb'])
    by_cases hlen : β.length = 100
    · rw [processBytes, processByte_overflow now β k sen b hb1 hb2 hlen]
      dsimp only
      obtain ⟨e1, e2, e3⟩ := ih hrest [] 0 sen (by simp)
      refine ⟨by simpa using e1, ?_, by simpa using e3⟩
      rw [e2]
      simp only [List.length_nil, List.length_cons, List.length_append, List.length_singleton]
      omega
    · rw [processBytes, processByte_printable now β k sen b hb1 hb2 (by omega)]
      dsimp only
      obtain ⟨e1, e2, e3⟩ := ih hrest (β ++ [Char.ofNat b]) 0 sen
        (by simp only [List.length_append, List.length_singleton]; omega)
      refine ⟨by simpa using e1, ?_, by simpa using e3⟩
      rw [e2]
      simp only [List.length_append, List.length_singleton, List.length_nil, List.length_cons]
      omega

lemma processBytes_msg (now : Nat) :
    ∀ (ms : List Char), (∀ c ∈ ms, 32 ≤ c.toNat ∧ c.toNat ≤ 126) →
      ∀ (β : List Char) (k : Nat) (sen : SensorData), β.length + ms.length ≤ 100 →
        processBytes now ⟨β, k, sen⟩ (msgBytes ms) =
          (⟨β ++ ms, if ms = [] then k else 0, sen⟩, []) := by
  intro ms
  induction ms with
  | nil =>
    intro _ β k sen _
    simp [processBytes, msgBytes]
  | cons c cs ih =>
    intro h β k sen hlen
    obtain ⟨hc1, hc2⟩ := h c (by simp)
    have hrest : ∀ c' ∈ cs, 32 ≤ c'.toNat ∧ c'.toNat ≤ 126 :=
      fun c' hc' => h c' (by simp [hc'])
    rw [show msgBytes (c :: cs) = c.toNat :: msgBytes cs from rfl, processBytes]
    rw [processByte_printable now β k sen c.toNat hc1 hc2
      (by simp only [List.length_cons] at hlen; omega)]
    dsimp only
    rw [Char.ofNat_toNat]
    rw [ih hrest (β ++ [c]) 0 sen
      (by simp only [List.length_append, List.length_singleton, List.length_nil,
        List.length_cons] at hlen ⊢; omega)]
    simp [List.append_assoc]

lemma processBytes_terminator (now : Nat) (β : List Char) (sen : SensorData)
    (h1 : β ≠ []) (h2 : β.length ≤ 100) :
    processBytes now ⟨β, 0, sen⟩ [255, 255, 255] =
      (⟨[], 0, parseArduinoData now sen β⟩, [β]) := by
  rw [processBytes, processByte_ff_low now β 0 sen (by omega) h2]
  dsimp only
  rw [processBytes, processByte_ff_low now β 1 sen (by omega) h2]
  dsimp only
  rw [processBytes, processByte_ff_third now β sen, if_neg h1]
  dsimp only
  rw [processBytes]
  simp
/-- The five measurement fields other than `i`, in declaration order. -/
def otherFields (i : Fin 6) (s : SensorData) : List Int :=
  if i.val = 0 then [s.pm25, s.o3, s.temp, s.hum, s.tvoc]
  else if i.val = 1 then [s.co2, s.o3, s.temp, s.hum, s.tvoc]
  else if i.val = 2 then [s.co2, s.pm25, s.temp, s.hum, s.tvoc]
  else if i.val = 3 then [s.co2, s.pm25, s.o3, s.hum, s.tvoc]
  else if i.val = 4 then [s.co2, s.pm25, s.o3, s.temp, s.tvoc]
  else [s.co2, s.pm25, s.o3, s.temp, s.hum]

/-! ### Helper lemmas: the store invariant and generic tag lemmas -/

lemma parse_preserves_storeInv (t : Nat) (s : SensorData) (m : List Char)
    (h : storeInv s) : storeInv (parseArduinoData t s m) := by
  obtain ⟨h1, h2, h3, h4, h5, h6⟩ := h
  unfold parseArduinoData
  dsimp only
  repeat' split
  all_goals refine ⟨?_, ?_, ?_, ?_, ?_, ?_⟩ <;> simp_all <;> omega

lemma parse_tag_accept (i : Fin 6) (t : Nat) (s : SensorData) (n : Int)
    (hn : inRange i n) :
    parseArduinoData t s (fieldTag i ++ intLit n) = writeField i n t s := by
  obtain ⟨iv, hlt⟩ := i
  interval_cases iv
  · have hr : 1 ≤ n ∧ n ≤ 9999 := by simpa [inRange, rangeLo, rangeHi] using hn
    show parseArduinoData t s (co2Tag ++ intLit n) = writeField ⟨0, by omega⟩ n t s
    rw [parse_co2_eq, atoi_intLit, if_pos (by omega)]
    rfl
  · have hr : 0 ≤ n ∧ n ≤ 1999 := by simpa [inRange, rangeLo, rangeHi] using hn
    show parseArduinoData t s (pm25Tag ++ intLit n) = writeField ⟨1, by omega⟩ n t s
    rw [parse_pm25_eq, atoi_intLit, if_pos (by omega)]
    rfl
  · have hr : 0 ≤ n ∧ n ≤ 1999 := by simpa [inRange, rangeLo, rangeHi] using hn
    show parseArduinoData t s (o3Tag ++ intLit n) = writeField ⟨2, by omega⟩ n t s
    rw [parse_o3_eq, atoi_intLit, if_pos (by omega)]
    rfl
  · have hr : -50 ≤ n ∧ n ≤ 99 := by simpa [inRange, rangeLo, rangeHi] using hn
    show parseArduinoData t s (tempTag ++ intLit n) = writeField ⟨3, by omega⟩ n t s
    rw [parse_temp_eq, atoi_intLit, if_pos (by omega)]
    rfl
  · have hr : 0 ≤ n ∧ n ≤ 100 := by simpa [inRange, rangeLo, rangeHi] using hn
    show parseArduinoData t s (humTag ++ intLit n) = writeField ⟨4, by omega⟩ n t s
    rw [parse_hum_eq, atoi_intLit, if_pos (by omega)]
    rfl
  · have hr : 0 ≤ n ∧ n ≤ 1999 := by simpa [inRange, rangeLo, rangeHi] using hn
    show parseArduinoData t s (tvocTag ++ intLit n) = writeField ⟨5, by omega⟩ n t s
    rw [parse_tvoc_eq, atoi_intLit, if_pos (by omega)]
    rfl

lemma parse_tag_reject (i : Fin 6) (t : Nat) (s : SensorData) (rest : List Char)
    (hn : ¬ inRange i (atoi rest)) :
    parseArduinoData t s (fieldTag i ++ rest) = s := by
  obtain ⟨iv, hlt⟩ := i
  interval_cases iv
  · have hr : ¬(1 ≤ atoi rest ∧ atoi rest ≤ 9999) := by
      simpa [inRange, rangeLo, rangeHi] using hn
    show parseArduinoData t s (co2Tag ++ rest) = s
    rw [parse_co2_eq, if_neg (by omega)]
  · have hr : ¬(0 ≤ atoi rest ∧ atoi rest ≤ 1999) := by
      simpa [inRange, rangeLo, rangeHi] using hn
    show parseArduinoData t s (pm25Tag ++ rest) = s
    rw [parse_pm25_eq, if_neg (by omega)]
  · have hr : ¬(0 ≤ atoi rest ∧ atoi rest ≤ 1999) := by
      simpa [inRange, rangeLo, rangeHi] using hn
    show parseArduinoData t s (o3Tag ++ rest) = s
    rw [parse_o3_eq, if_neg (by omega)]
  · have hr : ¬(-50 ≤ atoi rest ∧ atoi rest ≤ 99) := by
      simpa [inRange, rangeLo, rangeHi] using hn
    show parseArduinoData t s (tempTag ++ rest) = s
    rw [parse_temp_eq, if_neg (by omega)]
  · have hr : ¬(0 ≤ atoi rest ∧ atoi rest ≤ 100) := by
      simpa [inRange, rangeLo, rangeHi] using hn
    show parseArduinoData t s (humTag ++ rest) = s
    rw [parse_hum_eq, if_neg (by omega)]
  · have hr : ¬(0 ≤ atoi rest ∧ atoi rest ≤ 1999) := by
      simpa [inRange, rangeLo, rangeHi] using hn
    show parseArduinoData t s (tvocTag ++ rest) = s
    rw [parse_tvoc_eq, if_neg (by omega)]
/-! ### Non-numeric suffixes -/

/-- After `atol` skips whitespace and an optional sign, no digit follows:
the suffix has no leading number and `atol` yields 0. -/
def noLeadingDigits (cs : List Char) : Bool :=
  match skipSpaces cs with
  | [] => true
  | c :: r =>
    if c = '-' ∨ c = '+' then
      match r with
      | [] => true
      | d :: _ => !(isDigitChar d)
    else !(isDigitChar c)

lemma leadingDigits_nil : leadingDigits [] = [] := rfl

lemma leadingDigits_cons_not_digit (d : Char) (rr : List Char)
    (hd : isDigitChar d = false) : leadingDigits (d :: rr) = [] := by
  simp [leadingDigits, List.takeWhile_cons, hd]

lemma atoi_eq_zero_of_noLeadingDigits (cs : List Char)
    (h : noLeadingDigits cs = true) : atoi cs = 0 := by
  rcases hm : skipSpaces cs with _ | ⟨c, r⟩
  · rw [atoi, hm]
  · rw [noLeadingDigits, hm] at h
    rw [atoi, hm]
    dsimp only at h ⊢
    by_cases hsign : c = '-' ∨ c = '+'
    · rw [if_pos hsign] at h
      rcases hr : r with _ | ⟨d, rr⟩
      · rcases hsign with hc | hc <;> subst hc <;>
          simp [leadingDigits_nil, natOfDigits]
      · rw [hr] at h
        dsimp only at h
        have hd : isDigitChar d = false := by
          cases hdd : isDigitChar d
          · rfl
          · rw [hdd] at h; simp at h
        rcases hsign with hc | hc <;> subst hc <;>
          simp [leadingDigits_cons_not_digit d rr hd, natOfDigits]
    · rw [if_neg hsign] at h
      have hc1 : ¬(c = '-') := fun hc => hsign (Or.inl hc)
      have hc2 : ¬(c = '+') := fun hc => hsign (Or.inr hc)
      rw [if_neg hc1, if_neg hc2]
      have hd : isDigitChar c = false := by
        cases hdd : isDigitChar c
        · rfl
        · rw [hdd] at h; simp at h
      simp [leadingDigits_cons_not_digit c r hd, natOfDigits]

/-! ### Claim theorems (command parser and exporter) -/

/-- C1: Store range invariant — over every sequence of complete messages
fed to `parseArduinoData` starting from the zeroed store, each of the six
fields always equals its initial zero or an accepted in-range value; no
message ever writes an out-of-range value into a field. -/
theorem claim_C1_store_range_invariant (msgs : List (Nat × List Char)) :
    storeInv (processMessages msgs) := by
  have hinit : storeInv initialSensorData := by
    refine ⟨Or.inl rfl, Or.inl rfl, Or.inl rfl, Or.inl rfl, Or.inl rfl, Or.inl rfl⟩
  show storeInv (msgs.foldl (fun s tm => parseArduinoData tm.1 s tm.2) initialSensorData)
  generalize initialSensorData = s0 at hinit ⊢
  induction msgs generalizing s0 with
  | nil => exact hinit
  | cons m ms ih => exact ih _ (parse_preserves_storeInv m.1 s0 m.2 hinit)

/-- C2: Per-field acceptance — for each recognized tag and integer `n`,
the parser stores `n` exactly when `n` is in the field's declared range
(CO2 1..9999, PM2.5/O3/TVOC 0..1999, temperature -50..99, humidity
0..100), stamping `lastUpdate`; otherwise it leaves the store unchanged. -/
theorem claim_C2_per_field_acceptance (t : Nat) (s : SensorData) (n : Int) :
    (parseArduinoData t s (co2Tag ++ intLit n) =
      if 1 ≤ n ∧ n ≤ 9999 then { s with co2 := n, lastUpdate := t } else s) ∧
    (parseArduinoData t s (pm25Tag ++ intLit n) =
      if 0 ≤ n ∧ n ≤ 1999 then { s with pm25 := n, lastUpdate := t } else s) ∧
    (parseArduinoData t s (o3Tag ++ intLit n) =
      if 0 ≤ n ∧ n ≤ 1999 then { s with o3 := n, lastUpdate := t } else s) ∧
    (parseArduinoData t s (tempTag ++ intLit n) =
      if -50 ≤ n ∧ n ≤ 99 then { s with temp := n, lastUpdate := t } else s) ∧
    (parseArduinoData t s (humTag ++ intLit n) =
      if 0 ≤ n ∧ n ≤ 100 then { s with hum := n, lastUpdate := t } else s) ∧
    (parseArduinoData t s (tvocTag ++ intLit n) =
      if 0 ≤ n ∧ n ≤ 1999 then { s with tvoc := n, lastUpdate := t } else s) := by
  refine ⟨?_, ?_, ?_, ?_, ?_, ?_⟩
  · rw [parse_co2_eq, atoi_intLit]
    exact if_congr (by omega) rfl rfl
  · rw [parse_pm25_eq, atoi_intLit]
    exact if_congr (by omega) rfl rfl
  · rw [parse_o3_eq, atoi_intLit]
    exact if_congr (by omega) rfl rfl
  · rw [parse_temp_eq, atoi_intLit]
    exact if_congr (by omega) rfl rfl
  · rw [parse_hum_eq, atoi_intLit]
  · rw [parse_tvoc_eq, atoi_intLit]
    exact if_congr (by omega) rfl rfl
/-- C6: Silent rejection — an unrecognized message (no tag matches, e.g.
`"foo.val=1"`) or an out-of-range value (e.g. `"humV.val=150"`) leaves
every field and `lastUpdate` unchanged; `parseArduinoData` returns only
the (unchanged) store and surfaces no error to any caller. -/
theorem claim_C6_silent_rejection :
    (∀ (t : Nat) (s : SensorData),
      parseArduinoData t s (String.data "foo.val=1") = s) ∧
    (∀ (t : Nat) (s : SensorData) (data : List Char),
      (∀ i : Fin 6, (fieldTag i).isPrefixOf data = false) →
        parseArduinoData t s data = s) ∧
    (∀ (t : Nat) (s : SensorData),
      parseArduinoData t s (String.data "humV.val=150") = s) ∧
    (∀ (i : Fin 6) (t : Nat) (s : SensorData) (rest : List Char),
      ¬ inRange i (atoi rest) → parseArduinoData t s (fieldTag i ++ rest) = s) := by
  refine ⟨?_, ?_, ?_, ?_⟩
  · intro t s
    exact parse_unknown_eq t s _ (by decide)
  · intro t s data h
    exact parse_unknown_eq t s data h
  · intro t s
    rw [show String.data "humV.val=150" = humTag ++ ('1' :: '5' :: '0' :: []) from rfl]
    rw [parse_hum_eq, show atoi ('1' :: '5' :: '0' :: []) = 150 from rfl,
      if_neg (by omega)]
  · intro i t s rest h
    exact parse_tag_reject i t s rest h

/-- Witness for C6: the unknown-command and out-of-range branches applied
at concrete inputs. -/
theorem claim_C6_witness :
    parseArduinoData 3 initialSensorData (String.data "xyz") = initialSensorData ∧
    parseArduinoData 3 initialSensorData (fieldTag 4 ++ String.data "150") =
      initialSensorData :=
  ⟨claim_C6_silent_rejection.2.1 3 initialSensorData _ (by decide),
   claim_C6_silent_rejection.2.2.2 4 3 initialSensorData _ (by decide)⟩

/-- C7: A recognized tag with a non-numeric suffix parses as 0; the
parser therefore stores 0 and stamps `lastUpdate` for every field whose
range contains 0 (PM2.5, O3, TVOC, humidity, and likewise temperature),
while CO2 (range starting at 1) rejects the same shape and the store is
unchanged. -/
theorem claim_C7_nonnumeric_suffix (t : Nat) (s : SensorData) (ds : List Char)
    (h : noLeadingDigits ds = true) :
    atoi ds = 0 ∧
    parseArduinoData t s (pm25Tag ++ ds) = { s with pm25 := 0, lastUpdate := t } ∧
    parseArduinoData t s (o3Tag ++ ds) = { s with o3 := 0, lastUpdate := t } ∧
    parseArduinoData t s (tvocTag ++ ds) = { s with tvoc := 0, lastUpdate := t } ∧
    parseArduinoData t s (humTag ++ ds) = { s with hum := 0, lastUpdate := t } ∧
    parseArduinoData t s (tempTag ++ ds) = { s with temp := 0, lastUpdate := t } ∧
    parseArduinoData t s (co2Tag ++ ds) = s := by
  have h0 := atoi_eq_zero_of_noLeadingDigits ds h
  refine ⟨h0, ?_, ?_, ?_, ?_, ?_, ?_⟩
  · rw [parse_pm25_eq, h0, if_pos (by omega)]
  · rw [parse_o3_eq, h0, if_pos (by omega)]
  · rw [parse_tvoc_eq, h0, if_pos (by omega)]
  · rw [parse_hum_eq, h0, if_pos (by omega)]
  · rw [parse_temp_eq, h0, if_pos (by omega)]
  · rw [parse_co2_eq, h0, if_neg (by omega)]

/-- Witness for C7: the non-numeric suffix `"abc"` at time 9 from the
zeroed store. -/
theorem claim_C7_witness :
    atoi (String.data "abc") = 0 ∧
    parseArduinoData 9 initialSensorData (pm25Tag ++ String.data "abc") =
      { initialSensorData with pm25 := 0, lastUpdate := 9 } ∧
    parseArduinoData 9 initialSensorData (o3Tag ++ String.data "abc") =
      { initialSensorData with o3 := 0, lastUpdate := 9 } ∧
    parseArduinoData 9 initialSensorData (tvocTag ++ String.data "abc") =
      { initialSensorData with tvoc := 0, lastUpdate := 9 } ∧
    parseArduinoData 9 initialSensorData (humTag ++ String.data "abc") =
      { initialSensorData with hum := 0, lastUpdate := 9 } ∧
    parseArduinoData 9 initialSensorData (tempTag ++ String.data "abc") =
      { initialSensorData with temp := 0, lastUpdate := 9 } ∧
    parseArduinoData 9 initialSensorData (co2Tag ++ String.data "abc") =
      initialSensorData :=
  claim_C7_nonnumeric_suffix 9 initialSensorData (String.data "abc") (by decide)

/-- C8: Snapshot export — `handleData` returns the store unchanged, a 200
status, and the serialization of a document whose keys are exactly
`co2`, `pm25`, `o3`, `temp`, `hum`, `tvoc`, `lastUpdate`, carrying the
six current field values and the export-time clock reading `now` (not
the store's stored `lastUpdate`). -/
theorem claim_C8_snapshot_export_shape (s : SensorData) (now : Nat) :
    (handleData s now).1 = s ∧
    (handleData s now).2.1 = 200 ∧
    (handleDataDoc s now).map Prod.fst =
      ["co2", "pm25", "o3", "temp", "hum", "tvoc", "lastUpdate"] ∧
    (handleDataDoc s now).map Prod.snd =
      [s.co2, s.pm25, s.o3, s.temp, s.hum, s.tvoc, (now : Int)] ∧
    (handleData s now).2.2 = serializeJson (handleDataDoc s now) :=
  ⟨rfl, rfl, rfl, rfl, rfl⟩
lemma fieldVal_writeField (i : Fin 6) (v : Int) (t : Nat) (s : SensorData) :
    fieldVal i (writeField i v t s) = v := by
  obtain ⟨iv, hlt⟩ := i
  interval_cases iv <;> rfl

lemma lastUpdate_writeField (i : Fin 6) (v : Int) (t : Nat) (s : SensorData) :
    (writeField i v t s).lastUpdate = t := by
  obtain ⟨iv, hlt⟩ := i
  interval_cases iv <;> rfl

/-- C9: Idempotence of acceptance — processing the same valid message
twice stores the same field value both times, and each acceptance stamps
`lastUpdate` with its own (advancing) time. -/
theorem claim_C9_idempotent_acceptance (i : Fin 6) (t1 t2 : Nat) (s : SensorData)
    (n : Int) (h1 : inRange i n) (h2 : t1 < t2) :
    fieldVal i (parseArduinoData t1 s (fieldTag i ++ intLit n)) = n ∧
    fieldVal i (parseArduinoData t2 (parseArduinoData t1 s (fieldTag i ++ intLit n))
        (fieldTag i ++ intLit n)) =
      fieldVal i (parseArduinoData t1 s (fieldTag i ++ intLit n)) ∧
    (parseArduinoData t1 s (fieldTag i ++ intLit n)).lastUpdate = t1 ∧
    (parseArduinoData t2 (parseArduinoData t1 s (fieldTag i ++ intLit n))
        (fieldTag i ++ intLit n)).lastUpdate = t2 ∧
    (parseArduinoData t1 s (fieldTag i ++ intLit n)).lastUpdate <
      (parseArduinoData t2 (parseArduinoData t1 s (fieldTag i ++ intLit n))
        (fieldTag i ++ intLit n)).lastUpdate := by
  rw [parse_tag_accept i t1 s n h1, parse_tag_accept i t2 _ n h1]
  rw [fieldVal_writeField, fieldVal_writeField, lastUpdate_writeField,
    lastUpdate_writeField]
  exact ⟨rfl, rfl, rfl, rfl, h2⟩

/-- Witness for C9: humidity 50 accepted at times 1 then 2. -/
theorem claim_C9_witness :
    fieldVal 4 (parseArduinoData 1 initialSensorData (fieldTag 4 ++ intLit 50)) = 50 ∧
    fieldVal 4 (parseArduinoData 2 (parseArduinoData 1 initialSensorData
        (fieldTag 4 ++ intLit 50)) (fieldTag 4 ++ intLit 50)) =
      fieldVal 4 (parseArduinoData 1 initialSensorData (fieldTag 4 ++ intLit 50)) ∧
    (parseArduinoData 1 initialSensorData (fieldTag 4 ++ intLit 50)).lastUpdate = 1 ∧
    (parseArduinoData 2 (parseArduinoData 1 initialSensorData
        (fieldTag 4 ++ intLit 50)) (fieldTag 4 ++ intLit 50)).lastUpdate = 2 ∧
    (parseArduinoData 1 initialSensorData (fieldTag 4 ++ intLit 50)).lastUpdate <
      (parseArduinoData 2 (parseArduinoData 1 initialSensorData
        (fieldTag 4 ++ intLit 50)) (fieldTag 4 ++ intLit 50)).lastUpdate :=
  claim_C9_idempotent_acceptance 4 1 2 initialSensorData 50 (by decide) (by decide)

/-- C10: At most one field per message — the first-match tag chain means
any single message either leaves the store untouched or writes exactly
one field (with `lastUpdate`), the other five fields keeping their
values. -/
theorem claim_C10_at_most_one_field (t : Nat) (s : SensorData) (data : List Char) :
    parseArduinoData t s data = s ∨
    ∃ (i : Fin 6) (v : Int), parseArduinoData t s data = writeField i v t s ∧
      otherFields i (parseArduinoData t s data) = otherFields i s := by
  unfold parseArduinoData
  dsimp only
  repeat' split
  all_goals first
    | exact Or.inl rfl
    | exact Or.inr ⟨⟨0, by omega⟩, _, rfl, by simp [otherFields]⟩
    | exact Or.inr ⟨⟨1, by omega⟩, _, rfl, by simp [otherFields]⟩
    | exact Or.inr ⟨⟨2, by omega⟩, _, rfl, by simp [otherFields]⟩
    | exact Or.inr ⟨⟨3, by omega⟩, _, rfl, by simp [otherFields]⟩
    | exact Or.inr ⟨⟨4, by omega⟩, _, rfl, by simp [otherFields]⟩
    | exact Or.inr ⟨⟨5, by omega⟩, _, rfl, by simp [otherFields]⟩
/-- C3: Accumulation-buffer bound and overflow recovery — after any byte
the buffer holds at most 100 characters; a printable byte appended to a
full (100-character) buffer clears it and resets the delimiter counter;
and a run of 150 printable characters with no terminator emits no
message, the buffer being cleared exactly at the 101st character. -/
theorem claim_C3_buffer_bound_overflow :
    (∀ (now : Nat) (st : ReaderState) (b : Nat),
      (processByte now st b).1.serialBuffer.length ≤ 100) ∧
    (∀ (now : Nat) (β : List Char) (k : Nat) (sen : SensorData) (b : Nat),
      32 ≤ b → b ≤ 126 → β.length = 100 →
        processByte now ⟨β, k, sen⟩ b = (⟨[], 0, sen⟩, none)) ∧
    (∀ (now : Nat) (bs : List Nat),
      (∀ b ∈ bs, 32 ≤ b ∧ b ≤ 126) → bs.length = 150 →
        (processBytes now initialReaderState bs).2 = [] ∧
        (processBytes now initialReaderState (bs.take 101)).1.serialBuffer = []) := by
  refine ⟨?_, ?_, ?_⟩
  · intro now st b
    rw [processByte]
    dsimp only
    repeat' split
    all_goals simp_all
  · intro now β k sen b h1 h2 h3
    exact processByte_overflow now β k sen b h1 h2 h3
  · intro now bs h hlen
    have hinit : initialReaderState = (⟨[], 0, initialSensorData⟩ : ReaderState) := rfl
    constructor
    · rw [hinit]
      exact (processBytes_printable_run now bs h [] 0 initialSensorData (by simp)).1
    · rw [hinit]
      have htake : ∀ b ∈ bs.take 101, 32 ≤ b ∧ b ≤ 126 :=
        fun b hb => h b (List.take_subset 101 bs hb)
      have hlen2 : (bs.take 101).length = 101 := by
        rw [List.length_take]
        omega
      have := (processBytes_printable_run now (bs.take 101) htake [] 0
        initialSensorData (by simp)).2.1
      rw [hlen2] at this
      simp only [List.length_nil] at this
      exact List.length_eq_zero.mp (by omega)

/-- Witness for C3: a full buffer cleared by the byte 66, and a run of
150 copies of byte 65 emitting nothing and being clear at character
101. -/
theorem claim_C3_witness :
    processByte 0 ⟨List.replicate 100 'a', 7, initialSensorData⟩ 66 =
      (⟨[], 0, initialSensorData⟩, none) ∧
    (processBytes 0 initialReaderState (List.replicate 150 65)).2 = [] ∧
    (processBytes 0 initialReaderState ((List.replicate 150 65).take 101)).1.serialBuffer
      = [] :=
  ⟨claim_C3_buffer_bound_overflow.2.1 0 (List.replicate 100 'a') 7 initialSensorData 66
      (by omega) (by omega) (by simp),
   (claim_C3_buffer_bound_overflow.2.2 0 (List.replicate 150 65)
      (by intro b hb; rw [List.eq_of_mem_replicate hb]; omega) (by simp)).1,
   (claim_C3_buffer_bound_overflow.2.2 0 (List.replicate 150 65)
      (by intro b hb; rw [List.eq_of_mem_replicate hb]; omega) (by simp)).2⟩
/-- C4: Framing — the third consecutive 0xFF emits the buffer exactly
when non-empty and always clears buffer and counter; any non-0xFF byte
resets the counter; and `"temp"`, one stray 0xFF, `"V.val=21"`, then
three 0xFF reassemble the single message `"tempV.val=21"` and set
temperature to 21. -/
theorem claim_C4_framing :
    (∀ (now : Nat) (β : List Char) (sen : SensorData),
      processByte now ⟨β, 2, sen⟩ 255 =
        if β = [] then (⟨[], 0, sen⟩, none)
        else (⟨[], 0, parseArduinoData now sen β⟩, some β)) ∧
    (∀ (now : Nat) (st : ReaderState) (b : Nat), ¬(b = 255) →
      (processByte now st b).1.ffCount = 0) ∧
    (∀ now : Nat,
      (processBytes now initialReaderState
        (msgBytes (String.data "temp") ++ [255] ++ msgBytes (String.data "V.val=21")
          ++ [255, 255, 255])).2 = [String.data "tempV.val=21"] ∧
      (processBytes now initialReaderState
        (msgBytes (String.data "temp") ++ [255] ++ msgBytes (String.data "V.val=21")
          ++ [255, 255, 255])).1.sensor =
        { initialSensorData with temp := 21, lastUpdate := now }) := by
  refine ⟨processByte_ff_third, ?_, ?_⟩
  · intro now st b hb
    rw [processByte]
    dsimp only
    rw [if_neg hb]
    repeat' split
    all_goals rfl
  · intro now
    have hA : processBytes now ⟨[], 0, initialSensorData⟩ (msgBytes (String.data "temp")) =
        (⟨String.data "temp", 0, initialSensorData⟩, []) := by
      have := processBytes_msg now (String.data "temp") (by decide) [] 0
        initialSensorData (by decide)
      simpa only [List.nil_append, ite_self] using this
    have hB : processBytes now ⟨String.data "temp", 0, initialSensorData⟩ [255] =
        (⟨String.data "temp", 1, initialSensorData⟩, []) := by
      rw [processBytes, processByte_ff_low now (String.data "temp") 0 initialSensorData
        (by omega) (by decide)]
      simp [processBytes]
    have hC : processBytes now ⟨String.data "temp", 1, initialSensorData⟩
        (msgBytes (String.data "V.val=21")) =
        (⟨String.data "tempV.val=21", 0, initialSensorData⟩, []) := by
      rw [show msgBytes (String.data "V.val=21") =
        Char.toNat 'V' :: msgBytes (String.data ".val=21") from rfl]
      rw [processBytes, processByte_printable now (String.data "temp") 1 initialSensorData
        (Char.toNat 'V') (by decide) (by decide) (by decide)]
      dsimp only
      rw [Char.ofNat_toNat]
      rw [processBytes_msg now (String.data ".val=21") (by decide)
        (String.data "temp" ++ ['V']) 0 initialSensorData (by decide)]
      rw [show (String.data "temp" ++ ['V']) ++ String.data ".val=21" =
        String.data "tempV.val=21" from by decide]
      simp only [ite_self, Option.toList_none, List.nil_append]
    have hD : processBytes now ⟨String.data "tempV.val=21", 0, initialSensorData⟩
        [255, 255, 255] =
        (⟨[], 0, parseArduinoData now initialSensorData (String.data "tempV.val=21")⟩,
          [String.data "tempV.val=21"]) :=
      processBytes_terminator now (String.data "tempV.val=21") initialSensorData
        (by decide) (by decide)
    have hparse : parseArduinoData now initialSensorData (String.data "tempV.val=21") =
        { initialSensorData with temp := 21, lastUpdate := now } := by
      rw [show String.data "tempV.val=21" = tempTag ++ ('2' :: '1' :: []) from rfl,
        parse_temp_eq, show atoi ('2' :: '1' :: []) = 21 from by decide,
        if_pos (by omega)]
    have hTOT : processBytes now initialReaderState
        (msgBytes (String.data "temp") ++ [255] ++ msgBytes (String.data "V.val=21")
          ++ [255, 255, 255]) =
        (⟨[], 0, { initialSensorData with temp := 21, lastUpdate := now }⟩,
          [String.data "tempV.val=21"]) := by
      rw [show initialReaderState = (⟨[], 0, initialSensorData⟩ : ReaderState) from rfl]
      rw [processBytes_append now
        (msgBytes (String.data "temp") ++ [255] ++ msgBytes (String.data "V.val=21"))
        [255, 255, 255]]
      rw [processBytes_append now (msgBytes (String.data "temp") ++ [255])
        (msgBytes (String.data "V.val=21"))]
      rw [processBytes_append now (msgBytes (String.data "temp")) [255]]
      rw [hA]
      dsimp only
      rw [hB]
      dsimp only
      rw [hC]
      dsimp only
      rw [hD, hparse]
      simp
    exact ⟨by rw [hTOT], by rw [hTOT]⟩
/-- Witness for C4: a non-delimiter byte resets the counter. -/
theorem claim_C4_witness :
    (processByte 0 ⟨['a'], 2, initialSensorData⟩ 66).1.ffCount = 0 :=
  claim_C4_framing.2.1 0 ⟨['a'], 2, initialSensorData⟩ 66 (by omega)

/-- C5: Round trip — the bytes of `"co2V.val=523"` plus three 0xFF set
the store's CO2 field to 523 and stamp `lastUpdate`; a later export at
any time `tq` yields a JSON payload containing `"co2":523`. -/
theorem claim_C5_round_trip (now tq : Nat) :
    (processBytes now initialReaderState
      (msgBytes (String.data "co2V.val=523") ++ [255, 255, 255])).1.sensor.co2 = 523 ∧
    (processBytes now initialReaderState
      (msgBytes (String.data "co2V.val=523") ++ [255, 255, 255])).1.sensor.lastUpdate
      = now ∧
    ∃ l r : List Char,
      (handleData (processBytes now initialReaderState
        (msgBytes (String.data "co2V.val=523") ++ [255, 255, 255])).1.sensor tq).2.2 =
      l ++ String.data "\"co2\":523" ++ r := by
  have hMsg : processBytes now ⟨[], 0, initialSensorData⟩
      (msgBytes (String.data "co2V.val=523")) =
      (⟨String.data "co2V.val=523", 0, initialSensorData⟩, []) := by
    have := processBytes_msg now (String.data "co2V.val=523") (by decide) [] 0
      initialSensorData (by decide)
    simpa only [List.nil_append, ite_self] using this
  have hparse : parseArduinoData now initialSensorData (String.data "co2V.val=523") =
      { initialSensorData with co2 := 523, lastUpdate := now } := by
    rw [show String.data "co2V.val=523" = co2Tag ++ ('5' :: '2' :: '3' :: []) from rfl,
      parse_co2_eq, show atoi ('5' :: '2' :: '3' :: []) = 523 from by decide,
      if_pos (by omega)]
  have hTOT : processBytes now initialReaderState
      (msgBytes (String.data "co2V.val=523") ++ [255, 255, 255]) =
      (⟨[], 0, { initialSensorData with co2 := 523, lastUpdate := now }⟩,
        [String.data "co2V.val=523"]) := by
    rw [show initialReaderState = (⟨[], 0, initialSensorData⟩ : ReaderState) from rfl]
    rw [processBytes_append now (msgBytes (String.data "co2V.val=523")) [255, 255, 255]]
    rw [hMsg]
    dsimp only
    rw [processBytes_terminator now (String.data "co2V.val=523") initialSensorData
      (by decide) (by decide), hparse]
    simp
  refine ⟨by rw [hTOT], by rw [hTOT], ?_⟩
  rw [hTOT]
  refine ⟨['\x7b'],
    ',' :: joinComma (((handleDataDoc
        { initialSensorData with co2 := 523, lastUpdate := now } tq).map
      (fun kv => '"' :: kv.1.data ++ '"' :: ':' :: (toString kv.2).data)).drop 1)
      ++ ['\x7d'], ?_⟩
  rfl
